import Mathlib

/-!
Verification of `src/train/fix_unmatched_images.py` (orphan-file reconciler).

The Python program is embedded shallowly:

* filenames and paths are `String`s;
* `pathlib.Path(name).stem` is embedded as `stem`, following CPython's
  definition (`i = name.rfind('.')`; the suffix is stripped only when
  `0 < i < len(name) - 1`);
* `str.lower` is modelled by `lowerStr` (`Char.toLower` pointwise; they
  agree on ASCII, which is all the claims exercise);
* Python `dict` with insertion order is an association list
  `List (String × List String)` with unique keys, built by `addToMap`
  (the embedding of `m.setdefault(k, []).append(f)`);
* the filesystem is an explicit read-only snapshot `FileSystem`, with the
  outcome of an `unlink` attempt for every path given by an oracle field
  (`os.unlink` either succeeds, finds the file missing, or fails with a
  reason); `f.unlink(missing_ok=True)` is `unlink_missing_ok`;
* iteration over the Python `set` difference in `compute_orphans` has no
  specified order; the embedding iterates keys in dictionary insertion
  order, a deterministic refinement.  Claims about orphan lists are
  therefore stated up to set membership where the spec speaks of sets;
* `process_split` returns the report lines and error lines (the source
  joins them with `"\n"`), plus the trace of files on which `unlink` was
  invoked, which makes the frame/dry-run claims statable.
-/

/-- Index of the last `'.'` in a list of characters (Python `str.rfind('.')`,
as an `Option` instead of `-1`). -/
def lastDotIdx : List Char → Option Nat
  | [] => none
  | c :: cs =>
    match lastDotIdx cs with
    | some i => some (i + 1)
    | none => if c = '.' then some 0 else none

/-- `pathlib.PurePath.stem` on a bare filename: drop the last dot-delimited
suffix, but only when the last dot is at an interior position
(`0 < i < len - 1` in CPython). -/
def stemChars (l : List Char) : List Char :=
  match lastDotIdx l with
  | none => l
  | some i => if 0 < i ∧ i < l.length - 1 then l.take i else l

/-- `pathlib.Path(name).stem` for a filename (no path separator). -/
def stem (s : String) : String :=
  String.mk (stemChars s.data)

/-- `str.lower`, character by character (`Char.toLower`; agrees with
Python on ASCII, which is all the claims exercise). -/
def lowerStr (s : String) : String :=
  String.mk (s.data.map Char.toLower)

/-- `build_key(name, ignore_ext, ignore_case)` from the source:
`key = Path(name).stem if ignore_ext else Path(name).name`, then
`key.lower()` if `ignore_case`. -/
def build_key (name : String) (ignore_ext ignore_case : Bool) : String :=
  let key := if ignore_ext then stem name else name
  if ignore_case then lowerStr key else key

/-- `Path.name`: the component after the last `'/'` (paths produced by
`iterdir` are `dir/child`). -/
def baseName (p : String) : String :=
  String.mk ((p.data.reverse.takeWhile (fun c => c ≠ '/')).reverse)

/-- Join two path components with `'/'` (the `/` operator of `pathlib`). -/
def joinPath (a b : String) : String :=
  a ++ "/" ++ b

/-- `m.setdefault(k, []).append(f)` on an insertion-ordered association
list with unique keys. -/
def addToMap (m : List (String × List String)) (k : String) (f : String) :
    List (String × List String) :=
  match m with
  | [] => [(k, [f])]
  | (k', fs) :: rest =>
    if k' = k then (k', fs ++ [f]) :: rest else (k', fs) :: addToMap rest k f

/-- `collect_keys_map(files, ignore_ext, ignore_case)`: group the files by
`build_key(f.name, …)`, keeping per-key insertion order. -/
def collect_keys_map (files : List String) (ignore_ext ignore_case : Bool) :
    List (String × List String) :=
  files.foldl (fun m f => addToMap m (build_key (baseName f) ignore_ext ignore_case) f) []

/-- `m.keys()`. -/
def mapKeys (m : List (String × List String)) : List String :=
  m.map Prod.fst

/-- `m.get(k, [])`: the list stored under the first matching key, else `[]`. -/
def mapGet (m : List (String × List String)) (k : String) : List String :=
  match m with
  | [] => []
  | (k', fs) :: rest => if k' = k then fs else mapGet rest k

/-- `compute_orphans(image_map, index_map)`: keys present on one side and
absent from the other, flattened to the files stored under them.  Key
iteration follows dictionary insertion order (the Python set iteration
order is unspecified). -/
def compute_orphans (image_map index_map : List (String × List String)) :
    List String × List String :=
  let only_in_image := (mapKeys image_map).filter (fun k => ¬ k ∈ mapKeys index_map)
  let only_in_index := (mapKeys index_map).filter (fun k => ¬ k ∈ mapKeys image_map)
  (only_in_image.flatMap (mapGet image_map), only_in_index.flatMap (mapGet index_map))

/-- Outcome of an `os.unlink` attempt on one path: success, file already
absent, or a failure with a reason (permissions, I/O, …). -/
inductive UnlinkOutcome where
  | ok
  | missing
  | err (reason : String)
deriving DecidableEq

/-- `f.unlink(missing_ok=True)`: an already-absent target is silently a
success; any other failure surfaces as the exception text. -/
def unlink_missing_ok (o : UnlinkOutcome) : Except String Unit :=
  match o with
  | .ok => .ok ()
  | .missing => .ok ()
  | .err r => .error r

/-- `delete_files(files)`: try `f.unlink(missing_ok=True)` on each file in
order; count successes, and record `f"{f}: {e}"` for each failure without
stopping.  `unlink` is the per-path outcome oracle of the filesystem. -/
def delete_files (unlink : String → UnlinkOutcome) (files : List String) :
    Nat × List String :=
  files.foldl
    (fun acc f =>
      match unlink_missing_ok (unlink f) with
      | .ok _ => (acc.1 + 1, acc.2)
      | .error e => (acc.1, acc.2 ++ [f ++ ": " ++ e]))
    (0, [])

/-- Read-only snapshot of the filesystem plus the outcome each `unlink`
attempt would have. -/
structure FileSystem where
  pathExists : String → Bool
  isDir : String → Bool
  children : String → List String
  isFile : String → Bool
  unlink : String → UnlinkOutcome

/-- `list_files(d)`: empty when `d` is absent or not a directory, else the
direct children that are regular files. -/
def list_files (fs : FileSystem) (d : String) : List String :=
  if ¬ fs.pathExists d ∨ ¬ fs.isDir d then []
  else (fs.children d).filter fs.isFile

/-- `human_relpath(p, root)`: `p` relative to `root` when `p` lies under
it, else `p` unchanged (the source catches the `relative_to` exception). -/
def human_relpath (p root : String) : String :=
  if (root.data ++ ['/']).isPrefixOf p.data then String.mk (p.data.drop (root.data.length + 1))
  else p

/-- Lexicographic `≤` on character lists by code point (Python string
comparison). -/
def lexLe : List Char → List Char → Bool
  | [], _ => true
  | _ :: _, [] => false
  | a :: as, b :: bs => if a = b then lexLe as bs else decide (a < b)

/-- Lexicographic `≤` on strings. -/
def strLe (a b : String) : Bool :=
  lexLe a.data b.data

/-- `sorted(...)` on path strings: Python compares same-directory `Path`s
by their string form, lexicographically by code point. -/
def sortStrings (l : List String) : List String :=
  l.insertionSort (fun a b => strLe a b = true)

/-- Result of `process_split`: the per-split report lines and error lines
(the source returns them joined with `"\n"`), plus the trace of paths on
which an `unlink` attempt was made — the only filesystem mutation channel
of the program. -/
structure SplitResult where
  reportLines : List String
  errorLines : List String
  unlinkCalls : List String
deriving DecidableEq

/-- `process_split(root, split, image_dirname, index_dirname, ignore_ext,
ignore_case, do_delete)`: existence checks, scan, key indexing, orphan
diff, report, and (optionally) deletion, as in the source. -/
def process_split (fs : FileSystem) (root split image_dirname index_dirname : String)
    (ignore_ext ignore_case do_delete : Bool) : SplitResult :=
  let split_root := joinPath root split
  let image_dir := joinPath split_root image_dirname
  let index_dir := joinPath split_root index_dirname
  if ¬ fs.pathExists split_root then
    { reportLines := ["[" ++ split ++ "] ✖ split 目录不存在：" ++ human_relpath split_root root]
      errorLines := []
      unlinkCalls := [] }
  else if ¬ fs.pathExists image_dir ∨ ¬ fs.pathExists index_dir then
    { reportLines :=
        ["[" ++ split ++ "] ✖ 缺少子目录：需要 \x27" ++ image_dirname ++ "\x27 与 \x27" ++ index_dirname ++ "\x27"]
        ++ (if ¬ fs.pathExists image_dir then ["    - 缺少：" ++ human_relpath image_dir root] else [])
        ++ (if ¬ fs.pathExists index_dir then ["    - 缺少：" ++ human_relpath index_dir root] else [])
      errorLines := []
      unlinkCalls := [] }
  else
    let image_files := list_files fs image_dir
    let index_files := list_files fs index_dir
    let image_map := collect_keys_map image_files ignore_ext ignore_case
    let index_map := collect_keys_map index_files ignore_ext ignore_case
    let orphans := compute_orphans image_map index_map
    let orphan_img := orphans.1
    let orphan_idx := orphans.2
    let scanPart : List String :=
      ["[" ++ split ++ "] ✔ 扫描完成：image=" ++ toString image_files.length
         ++ "，index=" ++ toString index_files.length,
       "    - 仅在 image 的孤儿文件：" ++ toString orphan_img.length]
      ++ ((sortStrings orphan_img).take 10).map (fun p => "        * " ++ human_relpath p root)
      ++ (if orphan_img.length > 10 then ["        … 共 " ++ toString orphan_img.length ++ " 个"] else [])
      ++ ["    - 仅在 index 的孤儿文件：" ++ toString orphan_idx.length]
      ++ ((sortStrings orphan_idx).take 10).map (fun p => "        * " ++ human_relpath p root)
      ++ (if orphan_idx.length > 10 then ["        … 共 " ++ toString orphan_idx.length ++ " 个"] else [])
    if do_delete then
      let del_img := delete_files fs.unlink orphan_img
      let del_idx := delete_files fs.unlink orphan_idx
      { reportLines := scanPart
          ++ ["    - 删除 image 孤儿：" ++ toString del_img.1 ++ "/" ++ toString orphan_img.length,
              "    - 删除 index 孤儿：" ++ toString del_idx.1 ++ "/" ++ toString orphan_idx.length]
        errorLines :=
          del_img.2.map (fun e => "[" ++ split ++ "] 删除失败（image）: " ++ e)
          ++ del_idx.2.map (fun e => "[" ++ split ++ "] 删除失败（index）: " ++ e)
        unlinkCalls := orphan_img ++ orphan_idx }
    else
      { reportLines := scanPart ++ ["    - 试运行（未删除）。使用 --delete 进行删除。"]
        errorLines := []
        unlinkCalls := [] }

/-- Effect of one successful `unlink` on the filesystem snapshot: the path
stops existing, stops being a file, and leaves every directory listing.
Failed or missing-target attempts change nothing. -/
def applyUnlink (fs : FileSystem) (f : String) : FileSystem :=
  match fs.unlink f with
  | .ok =>
    { fs with
      pathExists := fun p => if p = f then false else fs.pathExists p
      isFile := fun p => if p = f then false else fs.isFile p
      children := fun d => (fs.children d).filter (fun p => decide (p ≠ f)) }
  | _ => fs

/-- The filesystem after a trace of `unlink` attempts. -/
def applyUnlinks (fs : FileSystem) (calls : List String) : FileSystem :=
  calls.foldl applyUnlink fs

/-! ### Lemmas about `stem` and `build_key` -/

theorem lastDotIdx_eq_none_of_not_mem (l : List Char) (h : ¬ '.' ∈ l) :
    lastDotIdx l = none := by
  induction l with
  | nil => rfl
  | cons c cs ih =>
    have hc : ¬ c = '.' := fun hc => h (hc ▸ List.mem_cons_self c cs)
    have hcs : ¬ '.' ∈ cs := fun hm => h (List.mem_cons_of_mem c hm)
    simp [lastDotIdx, ih hcs, hc]

theorem lastDotIdx_append_of_some (xs ys : List Char) (i : Nat)
    (h : lastDotIdx ys = some i) : lastDotIdx (xs ++ ys) = some (xs.length + i) := by
  induction xs with
  | nil => simpa using h
  | cons c cs ih => simp [lastDotIdx, ih, Nat.add_assoc, Nat.add_comm 1 i]

theorem stemChars_of_not_mem (l : List Char) (h : ¬ '.' ∈ l) : stemChars l = l := by
  simp [stemChars, lastDotIdx_eq_none_of_not_mem l h]

theorem stemChars_append_ext (b e : List Char) (hb : b ≠ []) (he : e ≠ [])
    (hd : ¬ '.' ∈ e) : stemChars (b ++ '.' :: e) = b := by
  have h0 : lastDotIdx ('.' :: e) = some 0 := by
    simp [lastDotIdx, lastDotIdx_eq_none_of_not_mem e hd]
  have h1 : lastDotIdx (b ++ '.' :: e) = some b.length :=
    lastDotIdx_append_of_some b ('.' :: e) 0 h0
  have hlen : b.length < (b ++ '.' :: e).length - 1 := by
    have : 0 < e.length := List.length_pos.mpr he
    simp [List.length_append]
    omega
  have hpos : 0 < b.length := List.length_pos.mpr hb
  simp only [stemChars, h1]
  rw [if_pos ⟨hpos, hlen⟩, List.take_append_of_le_length (Nat.le_refl _), List.take_length]

theorem stem_of_no_dot (n : String) (h : ¬ '.' ∈ n.data) : stem n = n := by
  cases n with
  | mk l => simp [stem, stemChars_of_not_mem l h]

theorem data_ne_nil (s : String) (h : s ≠ "") : s.data ≠ [] := by
  intro h0
  exact h (String.ext (by rw [h0]))

theorem stem_append_ext (base ext : String) (hb : base ≠ "") (he : ext ≠ "")
    (hd : ¬ '.' ∈ ext.data) : stem (base ++ "." ++ ext) = base := by
  have hdata : (base ++ "." ++ ext).data = base.data ++ '.' :: ext.data := by
    simp [String.data_append]
  have hres := stemChars_append_ext base.data ext.data (data_ne_nil base hb)
    (data_ne_nil ext he) hd
  cases base with
  | mk bd => simp only [stem, hdata, hres]

/-- C4: key construction is total and deterministic (it is a Lean
function); with ignore-extension set only the final dot-delimited suffix
is stripped — a name with no dot is unchanged, and a name `base.ext`
(non-empty base, non-empty dot-free extension) maps to the key of `base`;
extension stripping is applied before case folding; and `"A.PNG"` with
both flags enabled yields the key `"a"`. -/
theorem build_key_strip_then_fold :
    (∀ (n : String) (ic : Bool), ¬ '.' ∈ n.data →
      build_key n true ic = build_key n false ic)
  ∧ (∀ (base ext : String) (ic : Bool), base ≠ "" → ext ≠ "" → ¬ '.' ∈ ext.data →
      build_key (base ++ "." ++ ext) true ic = build_key base false ic)
  ∧ (∀ n : String, build_key n true true = lowerStr (build_key n true false))
  ∧ build_key "A.PNG" true true = "a" := by
  refine ⟨?_, ?_, ?_, ?_⟩
  · intro n ic h
    simp [build_key, stem_of_no_dot n h]
  · intro base ext ic hb he hd
    simp [build_key, stem_append_ext base ext hb he hd]
  · intro n
    rfl
  · decide

/-- Witness for C4 at concrete inputs: `archive.tar.gz` strips only `gz`,
and the dotless `README` is unchanged. -/
theorem build_key_strip_then_fold_witness :
    build_key ("archive.tar" ++ "." ++ "gz") true false = build_key "archive.tar" false false
  ∧ build_key "README" true true = build_key "README" false true :=
  ⟨build_key_strip_then_fold.2.1 "archive.tar" "gz" false (by decide) (by decide) (by decide),
   build_key_strip_then_fold.1 "README" true (by decide)⟩

/-- C9: with ignore-ext enabled, two filenames with the same base name and
different (non-empty, dot-free) extensions get equal keys, for either
setting of ignore-case. -/
theorem build_key_ext_insensitive :
    ∀ (a ext1 ext2 : String) (ic : Bool),
      a ≠ "" → ext1 ≠ "" → ext2 ≠ "" →
      ¬ '.' ∈ ext1.data → ¬ '.' ∈ ext2.data →
      build_key (a ++ "." ++ ext1) true ic = build_key (a ++ "." ++ ext2) true ic := by
  intro a e1 e2 ic ha h1 h2 hd1 hd2
  simp [build_key, stem_append_ext a e1 ha h1 hd1, stem_append_ext a e2 ha h2 hd2]

/-- Witness for C9: `photo.jpg` and `photo.PNG` share a key under
ignore-ext (with ignore-case on). -/
theorem build_key_ext_insensitive_witness :
    build_key ("photo" ++ "." ++ "jpg") true true = build_key ("photo" ++ "." ++ "PNG") true true :=
  build_key_ext_insensitive "photo" "jpg" "PNG" true (by decide) (by decide) (by decide)
    (by decide) (by decide)

/-! ### Orphan computation -/

/-- C1: on each side, the orphans returned by `compute_orphans` are
exactly the files stored under a key present in that side's map and
absent from the other side's map (flattened over all such keys); and the
spec's concrete scenario holds: images `{a.jpg, b.jpg, c.jpg}` against
indexes `{a.idx, b.idx, d.idx}` under ignore-ext gives image orphans
`{c.jpg}` and index orphans `{d.idx}`. -/
theorem compute_orphans_characterisation :
    (∀ (m1 m2 : List (String × List String)) (f : String),
        (f ∈ (compute_orphans m1 m2).1 ↔
          ∃ k, k ∈ mapKeys m1 ∧ ¬ k ∈ mapKeys m2 ∧ f ∈ mapGet m1 k)
      ∧ (f ∈ (compute_orphans m1 m2).2 ↔
          ∃ k, k ∈ mapKeys m2 ∧ ¬ k ∈ mapKeys m1 ∧ f ∈ mapGet m2 k))
  ∧ compute_orphans (collect_keys_map ["a.jpg", "b.jpg", "c.jpg"] true false)
      (collect_keys_map ["a.idx", "b.idx", "d.idx"] true false)
      = (["c.jpg"], ["d.idx"]) := by
  constructor
  · intro m1 m2 f
    constructor <;> simp [compute_orphans, List.mem_flatMap, List.mem_filter, and_assoc]
  · decide

/-- C8: swapping the two maps swaps the two orphan lists, preserving
their contents (here even as lists, since key iteration is
deterministic in the embedding). -/
theorem compute_orphans_symmetric :
    ∀ (m1 m2 : List (String × List String)),
      (∀ f, f ∈ (compute_orphans m1 m2).1 ↔ f ∈ (compute_orphans m2 m1).2)
    ∧ (∀ f, f ∈ (compute_orphans m1 m2).2 ↔ f ∈ (compute_orphans m2 m1).1) :=
  fun _ _ => ⟨fun _ => Iff.rfl, fun _ => Iff.rfl⟩

/-! ### Directory listing -/

/-- C7: listing a path that is absent or not a directory yields the empty
collection (no error), and otherwise yields exactly the direct children
that are regular files. -/
theorem list_files_spec :
    ∀ (fs : FileSystem) (d : String),
      ((¬ fs.pathExists d ∨ ¬ fs.isDir d) → list_files fs d = [])
    ∧ (fs.pathExists d → fs.isDir d →
        ∀ f, f ∈ list_files fs d ↔ f ∈ fs.children d ∧ fs.isFile f) := by
  intro fs d
  constructor
  · intro h
    unfold list_files
    exact if_pos h
  · intro h1 h2 f
    have hno : ¬ (¬ fs.pathExists d ∨ ¬ fs.isDir d) := by simp [h1, h2]
    unfold list_files
    rw [if_neg hno]
    simp [List.mem_filter]

/-- Example filesystem: one `train` split with three images and three
indexes, one not-deletable image orphan, one already-absent index orphan. -/
def fsExample : FileSystem where
  pathExists := fun p => ["r/train", "r/train/image", "r/train/index"].contains p
  isDir := fun p => ["r/train", "r/train/image", "r/train/index"].contains p
  children := fun d =>
    if d = "r/train/image" then
      ["r/train/image/a.jpg", "r/train/image/b.jpg", "r/train/image/c.jpg"]
    else if d = "r/train/index" then
      ["r/train/index/a.idx", "r/train/index/b.idx", "r/train/index/d.idx"]
    else []
  isFile := fun p =>
    ["r/train/image/a.jpg", "r/train/image/b.jpg", "r/train/image/c.jpg",
     "r/train/index/a.idx", "r/train/index/b.idx", "r/train/index/d.idx"].contains p
  unlink := fun f =>
    if f = "r/train/image/c.jpg" then UnlinkOutcome.err "Permission denied"
    else if f = "r/train/index/d.idx" then UnlinkOutcome.missing
    else UnlinkOutcome.ok

/-- Witness for C7: a missing directory lists as empty, and a real file is
listed in its directory. -/
theorem list_files_spec_witness :
    list_files fsExample "r/valid/image" = []
  ∧ ("r/train/image/a.jpg" ∈ list_files fsExample "r/train/image" ↔
      "r/train/image/a.jpg" ∈ fsExample.children "r/train/image"
        ∧ fsExample.isFile "r/train/image/a.jpg") :=
  ⟨(list_files_spec fsExample "r/valid/image").1 (Or.inl (by decide)),
   (list_files_spec fsExample "r/train/image").2 (by decide) (by decide) "r/train/image/a.jpg"⟩

/-! ### Deletion -/

/-- Whether a `missing_ok` unlink attempt on `f` counts as a success. -/
def unlinkOk (u : String → UnlinkOutcome) (f : String) : Bool :=
  match unlink_missing_ok (u f) with
  | Except.ok _ => true
  | Except.error _ => false

/-- The error entry an unlink attempt on `f` produces, if any. -/
def unlinkErrLine (u : String → UnlinkOutcome) (f : String) : Option String :=
  match unlink_missing_ok (u f) with
  | Except.ok _ => none
  | Except.error e => some (f ++ ": " ++ e)

theorem delete_files_go (u : String → UnlinkOutcome) :
    ∀ (files : List String) (c : Nat) (es : List String),
      files.foldl
        (fun acc f =>
          match unlink_missing_ok (u f) with
          | .ok _ => (acc.1 + 1, acc.2)
          | .error e => (acc.1, acc.2 ++ [f ++ ": " ++ e]))
        (c, es)
      = (c + (files.filter (unlinkOk u)).length, es ++ files.filterMap (unlinkErrLine u)) := by
  intro files
  induction files with
  | nil => intro c es; simp
  | cons f fs ih =>
    intro c es
    cases h : unlink_missing_ok (u f) with
    | ok v =>
      have hok : unlinkOk u f = true := by simp [unlinkOk, h]
      have herr : unlinkErrLine u f = none := by simp [unlinkErrLine, h]
      simp [List.foldl_cons, h, ih, List.filter_cons, List.filterMap_cons, hok, herr,
        Prod.mk.injEq]
      try omega
    | error e =>
      have hok : unlinkOk u f = false := by simp [unlinkOk, h]
      have herr : unlinkErrLine u f = some (f ++ ": " ++ e) := by simp [unlinkErrLine, h]
      simp [List.foldl_cons, h, ih, List.filter_cons, List.filterMap_cons, hok, herr,
        Prod.mk.injEq]
      try omega

theorem delete_files_eq (u : String → UnlinkOutcome) (files : List String) :
    delete_files u files
      = ((files.filter (unlinkOk u)).length, files.filterMap (unlinkErrLine u)) := by
  simpa [delete_files] using delete_files_go u files 0 []

/-- C10: the successful-deletion count plus the number of recorded error
entries equals the number of files given to `delete_files` — every file
is accounted for exactly once. -/
theorem delete_files_accounting :
    ∀ (u : String → UnlinkOutcome) (files : List String),
      (delete_files u files).1 + (delete_files u files).2.length = files.length := by
  intro u files
  have key : ∀ fl : List String,
      (fl.filter (unlinkOk u)).length + (fl.filterMap (unlinkErrLine u)).length = fl.length := by
    intro fl
    induction fl with
    | nil => rfl
    | cons f fs ih =>
      cases h : unlink_missing_ok (u f) with
      | ok v =>
        have hok : unlinkOk u f = true := by simp [unlinkOk, h]
        have herr : unlinkErrLine u f = none := by simp [unlinkErrLine, h]
        simp [List.filter_cons, List.filterMap_cons, hok, herr]
        omega
      | error e =>
        have hok : unlinkOk u f = false := by simp [unlinkOk, h]
        have herr : unlinkErrLine u f = some (f ++ ": " ++ e) := by simp [unlinkErrLine, h]
        simp [List.filter_cons, List.filterMap_cons, hok, herr]
        omega
  rw [delete_files_eq]
  exact key files

/-! ### Split processing: structural checks and dry run -/

/-- C6: a missing split root yields exactly the one split-missing report
line and nothing else (no scan, no deletion attempt, no error); a present
split root with a missing image or index subdirectory yields the
missing-subdirectory header plus one line for exactly each missing side,
again with no scan, no deletion attempt and no error.  Both cases are
total functions of the snapshot — no exception is modelled or needed. -/
theorem process_split_missing_reports :
    ∀ (fs : FileSystem) (root split imgd idxd : String) (ie ic del : Bool),
      (¬ fs.pathExists (joinPath root split) →
        process_split fs root split imgd idxd ie ic del =
          { reportLines :=
              ["[" ++ split ++ "] ✖ split 目录不存在：" ++ human_relpath (joinPath root split) root]
            errorLines := []
            unlinkCalls := [] })
    ∧ (fs.pathExists (joinPath root split) →
        ¬ (fs.pathExists (joinPath (joinPath root split) imgd)
            ∧ fs.pathExists (joinPath (joinPath root split) idxd)) →
        process_split fs root split imgd idxd ie ic del =
          { reportLines :=
              ["[" ++ split ++ "] ✖ 缺少子目录：需要 \x27" ++ imgd ++ "\x27 与 \x27" ++ idxd ++ "\x27"]
              ++ (if fs.pathExists (joinPath (joinPath root split) imgd) then []
                  else ["    - 缺少：" ++ human_relpath (joinPath (joinPath root split) imgd) root])
              ++ (if fs.pathExists (joinPath (joinPath root split) idxd) then []
                  else ["    - 缺少：" ++ human_relpath (joinPath (joinPath root split) idxd) root])
            errorLines := []
            unlinkCalls := [] }) := by
  intro fs root split imgd idxd ie ic del
  constructor
  · intro h
    simp [process_split, h]
  · intro h1 h2
    have h2' : ¬ fs.pathExists (joinPath (joinPath root split) imgd)
        ∨ ¬ fs.pathExists (joinPath (joinPath root split) idxd) := by tauto
    simp only [process_split]
    rw [if_neg (not_not_intro h1), if_pos h2']
    cases hb1 : fs.pathExists (joinPath (joinPath root split) imgd) <;>
      cases hb2 : fs.pathExists (joinPath (joinPath root split) idxd) <;>
        simp_all

/-- `fsExample` with no split directory at all. -/
def fsNoSplit : FileSystem :=
  { fsExample with pathExists := fun _ => false }

/-- `fsExample` with the index subdirectory removed. -/
def fsNoIdx : FileSystem :=
  { fsExample with pathExists := fun p => ["r/train", "r/train/image"].contains p }

/-- Witness for C6: a missing split root reports only the split-missing
line; a missing index subdirectory reports the header and names exactly
`index`. -/
theorem process_split_missing_reports_witness :
    process_split fsNoSplit "r" "train" "image" "index" true false true =
      { reportLines := ["[train] ✖ split 目录不存在：train"]
        errorLines := []
        unlinkCalls := [] }
  ∧ process_split fsNoIdx "r" "train" "image" "index" true false true =
      { reportLines := ["[train] ✖ 缺少子目录：需要 \x27image\x27 与 \x27index\x27",
                        "    - 缺少：train/index"]
        errorLines := []
        unlinkCalls := [] } :=
  ⟨((process_split_missing_reports fsNoSplit "r" "train" "image" "index" true false true).1
      (by decide)).trans (by decide),
   ((process_split_missing_reports fsNoIdx "r" "train" "image" "index" true false true).2
      (by decide) (by decide)).trans (by decide)⟩

/-- C3: with the delete flag unset, processing a split makes no `unlink`
call at all, so the filesystem after the run is the one before it (all
directory listings unchanged), the error string is empty, and — whenever
the split and both subdirectories exist, so that step 7 is reached — the
report ends stating the dry run. -/
theorem process_split_dry_run :
    ∀ (fs : FileSystem) (root split imgd idxd : String) (ie ic : Bool),
      (process_split fs root split imgd idxd ie ic false).unlinkCalls = []
    ∧ (∀ d, list_files
          (applyUnlinks fs (process_split fs root split imgd idxd ie ic false).unlinkCalls) d
        = list_files fs d)
    ∧ (process_split fs root split imgd idxd ie ic false).errorLines = []
    ∧ (fs.pathExists (joinPath root split) →
        fs.pathExists (joinPath (joinPath root split) imgd) →
        fs.pathExists (joinPath (joinPath root split) idxd) →
        "    - 试运行（未删除）。使用 --delete 进行删除。"
          ∈ (process_split fs root split imgd idxd ie ic false).reportLines) := by
  intro fs root split imgd idxd ie ic
  have hcalls : (process_split fs root split imgd idxd ie ic false).unlinkCalls = [] := by
    simp only [process_split]
    split
    · rfl
    · split
      · rfl
      · rfl
  have herr : (process_split fs root split imgd idxd ie ic false).errorLines = [] := by
    simp only [process_split]
    split
    · rfl
    · split
      · rfl
      · rfl
  refine ⟨hcalls, ?_, herr, ?_⟩
  · intro d
    rw [hcalls]
    rfl
  · intro h1 h2 h3
    have hno : ¬ (¬ fs.pathExists (joinPath (joinPath root split) imgd)
        ∨ ¬ fs.pathExists (joinPath (joinPath root split) idxd)) := by simp [h2, h3]
    simp only [process_split]
    rw [if_neg (not_not_intro h1), if_neg hno]
    simp

/-- Witness for C3 on `fsExample`: no deletion attempt, and the dry-run
line is reported. -/
theorem process_split_dry_run_witness :
    (process_split fsExample "r" "train" "image" "index" true false false).unlinkCalls = []
  ∧ "    - 试运行（未删除）。使用 --delete 进行删除。"
      ∈ (process_split fsExample "r" "train" "image" "index" true false false).reportLines :=
  ⟨(process_split_dry_run fsExample "r" "train" "image" "index" true false).1,
   (process_split_dry_run fsExample "r" "train" "image" "index" true false).2.2.2
     (by decide) (by decide) (by decide)⟩

/-! ### Split processing: deletion -/

theorem delete_files_count_eq (u : String → UnlinkOutcome) (files : List String) :
    (delete_files u files).1
      = (files.filter (fun f =>
          u f = UnlinkOutcome.ok ∨ u f = UnlinkOutcome.missing)).length := by
  rw [delete_files_eq]
  show (files.filter (unlinkOk u)).length = _
  have hpt : ∀ f, unlinkOk u f
      = decide (u f = UnlinkOutcome.ok ∨ u f = UnlinkOutcome.missing) := by
    intro f
    cases h : u f <;> simp [unlinkOk, unlink_missing_ok, h]
  exact congrArg List.length (List.filter_congr (fun f _ => hpt f))

theorem delete_files_errs_eq (u : String → UnlinkOutcome) (files : List String) :
    (delete_files u files).2
      = files.filterMap (fun f =>
          match u f with
          | UnlinkOutcome.err e => some (f ++ ": " ++ e)
          | _ => none) := by
  rw [delete_files_eq]
  show files.filterMap (unlinkErrLine u) = _
  induction files with
  | nil => rfl
  | cons f fs ih =>
    cases h : u f <;>
      simp [List.filterMap_cons, unlinkErrLine, unlink_missing_ok, h, ih]

/-- C2: with the delete flag set (and the split and both subdirectories
present), a removal is attempted for every file of both orphan sets, one
by one; a target whose raw unlink outcome is `missing` (already absent)
counts towards the success count exactly like a plain success; the error
entries are exactly those of the genuinely failing files — each carries
the path and the underlying reason and no failure stops the remaining
attempts on either side — and the report states successes out of
attempted for each side. -/
theorem process_split_delete_spec :
    ∀ (fs : FileSystem) (root split imgd idxd : String) (ie ic : Bool),
      fs.pathExists (joinPath root split) →
      fs.pathExists (joinPath (joinPath root split) imgd) →
      fs.pathExists (joinPath (joinPath root split) idxd) →
      (let r := process_split fs root split imgd idxd ie ic true
       let orphans := compute_orphans
           (collect_keys_map (list_files fs (joinPath (joinPath root split) imgd)) ie ic)
           (collect_keys_map (list_files fs (joinPath (joinPath root split) idxd)) ie ic)
       r.unlinkCalls = orphans.1 ++ orphans.2
       ∧ (delete_files fs.unlink orphans.1).1
           = (orphans.1.filter (fun f =>
               fs.unlink f = UnlinkOutcome.ok ∨ fs.unlink f = UnlinkOutcome.missing)).length
       ∧ (delete_files fs.unlink orphans.2).1
           = (orphans.2.filter (fun f =>
               fs.unlink f = UnlinkOutcome.ok ∨ fs.unlink f = UnlinkOutcome.missing)).length
       ∧ r.errorLines
           = (delete_files fs.unlink orphans.1).2.map
               (fun e => "[" ++ split ++ "] 删除失败（image）: " ++ e)
             ++ (delete_files fs.unlink orphans.2).2.map
               (fun e => "[" ++ split ++ "] 删除失败（index）: " ++ e)
       ∧ (delete_files fs.unlink orphans.1).2
           = orphans.1.filterMap (fun f =>
               match fs.unlink f with
               | UnlinkOutcome.err e => some (f ++ ": " ++ e)
               | _ => none)
       ∧ (delete_files fs.unlink orphans.2).2
           = orphans.2.filterMap (fun f =>
               match fs.unlink f with
               | UnlinkOutcome.err e => some (f ++ ": " ++ e)
               | _ => none)
       ∧ ("    - 删除 image 孤儿：" ++ toString (delete_files fs.unlink orphans.1).1 ++ "/"
             ++ toString orphans.1.length) ∈ r.reportLines
       ∧ ("    - 删除 index 孤儿：" ++ toString (delete_files fs.unlink orphans.2).1 ++ "/"
             ++ toString orphans.2.length) ∈ r.reportLines) := by
  intro fs root split imgd idxd ie ic h1 h2 h3
  have hno : ¬ (¬ fs.pathExists (joinPath (joinPath root split) imgd)
      ∨ ¬ fs.pathExists (joinPath (joinPath root split) idxd)) := by simp [h2, h3]
  simp only [process_split]
  rw [if_neg (not_not_intro h1), if_neg hno, if_pos trivial]
  refine ⟨rfl, delete_files_count_eq _ _, delete_files_count_eq _ _, rfl,
    delete_files_errs_eq _ _, delete_files_errs_eq _ _, ?_, ?_⟩ <;>
    simp [List.mem_append]

/-- Witness for C2 on `fsExample`: the image orphan `c.jpg` is
permission-denied (one error entry, zero successes reported), while the
index orphan `d.idx` is already absent and still counts as deleted. -/
theorem process_split_delete_spec_witness :
    (process_split fsExample "r" "train" "image" "index" true false true).unlinkCalls
      = ["r/train/image/c.jpg", "r/train/index/d.idx"]
  ∧ (process_split fsExample "r" "train" "image" "index" true false true).errorLines
      = ["[train] 删除失败（image）: r/train/image/c.jpg: Permission denied"] := by
  have h := process_split_delete_spec fsExample "r" "train" "image" "index" true false
    (by decide) (by decide) (by decide)
  exact ⟨h.1.trans (by decide), h.2.2.2.1.trans (by decide)⟩

/-! ### Sorting and report preview classification -/

theorem lexLe_total : ∀ a b : List Char, lexLe a b = true ∨ lexLe b a = true := by
  intro a
  induction a with
  | nil => intro b; left; rfl
  | cons x xs ih =>
    intro b
    cases b with
    | nil => right; rfl
    | cons y ys =>
      by_cases hxy : x = y
      · subst hxy
        simpa [lexLe] using ih ys
      · rcases lt_or_gt_of_ne hxy with hlt | hgt
        · left; simp [lexLe, hxy, hlt]
        · right; simp [lexLe, Ne.symm hxy, hgt]

theorem lexLe_trans :
    ∀ a b c : List Char, lexLe a b = true → lexLe b c = true → lexLe a c = true := by
  intro a
  induction a with
  | nil => intro b c _ _; rfl
  | cons x xs ih =>
    intro b c hab hbc
    cases b with
    | nil => simp [lexLe] at hab
    | cons y ys =>
      cases c with
      | nil => simp [lexLe] at hbc
      | cons z zs =>
        by_cases hxy : x = y <;> by_cases hyz : y = z
        · subst hxy; subst hyz
          simp only [lexLe, if_pos rfl] at hab hbc ⊢
          exact ih ys zs hab hbc
        · subst hxy
          simp only [lexLe, if_pos rfl, if_neg hyz] at hbc ⊢
          simpa using hbc
        · subst hyz
          simp only [lexLe, if_neg hxy] at hab ⊢
          simpa using hab
        · simp only [lexLe, if_neg hxy] at hab
          simp only [lexLe, if_neg hyz] at hbc
          have hab' : x < y := by simpa using hab
          have hbc' : y < z := by simpa using hbc
          have hxz : x < z := lt_trans hab' hbc'
          simp [lexLe, ne_of_lt hxz, hxz]

instance : IsTotal String (fun a b => strLe a b = true) :=
  ⟨fun a b => lexLe_total a.data b.data⟩

instance : IsTrans String (fun a b => strLe a b = true) :=
  ⟨fun a b c => lexLe_trans a.data b.data c.data⟩

theorem sortStrings_perm (l : List String) : List.Perm (sortStrings l) l :=
  List.perm_insertionSort _ l

theorem sortStrings_sorted (l : List String) :
    List.Sorted (fun a b => strLe a b = true) (sortStrings l) :=
  List.sorted_insertionSort _ l

theorem length_sortStrings (l : List String) : (sortStrings l).length = l.length :=
  (sortStrings_perm l).length_eq

/-- The nine characters that announce an orphan-preview report line. -/
def previewPrefix : List Char :=
  [' ', ' ', ' ', ' ', ' ', ' ', ' ', ' ', '*']

/-- Whether a report line is one of the orphan-preview lines (first nine
characters `"        *"`). -/
def isPreviewLine (l : String) : Bool :=
  decide (l.data.take 9 = previewPrefix)

theorem not_preview_of_head (c : Char) (l : List Char) (hc : ¬ c = ' ') :
    decide ((c :: l).take 9 = previewPrefix) = false := by
  apply decide_eq_false
  intro hEq
  have h9 : (c :: l).take 9 = c :: l.take 8 := rfl
  rw [h9] at hEq
  simp only [previewPrefix] at hEq
  injection hEq with h1 _
  exact hc h1

theorem isPreviewLine_false_of_prefix9 (x : String) (pre rest : List Char)
    (hx : x.data = pre ++ rest) (h9 : 9 ≤ pre.length) (hne : ¬ pre.take 9 = previewPrefix) :
    isPreviewLine x = false := by
  simp only [isPreviewLine, hx]
  rw [List.take_append_of_le_length h9]
  exact decide_eq_false hne

theorem isPreviewLine_star (t : String) : isPreviewLine ("        * " ++ t) = true := by
  simp only [isPreviewLine, String.data_append]
  apply decide_eq_true
  rw [List.take_append_of_le_length (by decide)]
  decide

theorem preview_scan (split a b : String) :
    isPreviewLine ("[" ++ split ++ "] ✔ 扫描完成：image=" ++ a ++ "，index=" ++ b) = false := by
  simp only [isPreviewLine, String.data_append, List.append_assoc]
  exact not_preview_of_head '[' _ (by decide)

theorem preview_imgHdr (t : String) :
    isPreviewLine ("    - 仅在 image 的孤儿文件：" ++ t) = false := by
  simp only [isPreviewLine, String.data_append, List.append_assoc]
  apply decide_eq_false
  intro hEq
  rw [List.take_append_of_le_length (by decide)] at hEq
  exact absurd hEq (by decide)

theorem preview_idxHdr (t : String) :
    isPreviewLine ("    - 仅在 index 的孤儿文件：" ++ t) = false := by
  simp only [isPreviewLine, String.data_append, List.append_assoc]
  apply decide_eq_false
  intro hEq
  rw [List.take_append_of_le_length (by decide)] at hEq
  exact absurd hEq (by decide)

theorem preview_more (a : String) :
    isPreviewLine ("        … 共 " ++ a ++ " 个") = false := by
  simp only [isPreviewLine, String.data_append, List.append_assoc]
  apply decide_eq_false
  intro hEq
  rw [List.take_append_of_le_length (by decide)] at hEq
  exact absurd hEq (by decide)

theorem preview_delImg (a b : String) :
    isPreviewLine ("    - 删除 image 孤儿：" ++ a ++ "/" ++ b) = false := by
  simp only [isPreviewLine, String.data_append, List.append_assoc]
  apply decide_eq_false
  intro hEq
  rw [List.take_append_of_le_length (by decide)] at hEq
  exact absurd hEq (by decide)

theorem preview_delIdx (a b : String) :
    isPreviewLine ("    - 删除 index 孤儿：" ++ a ++ "/" ++ b) = false := by
  simp only [isPreviewLine, String.data_append, List.append_assoc]
  apply decide_eq_false
  intro hEq
  rw [List.take_append_of_le_length (by decide)] at hEq
  exact absurd hEq (by decide)

theorem preview_dry :
    isPreviewLine "    - 试运行（未删除）。使用 --delete 进行删除。" = false := by
  decide

/-- C5: after a successful scan the report carries the per-side scan
counts and per-side orphan counts; every entry of the first ten
lexicographically sorted orphan paths of each side appears as a preview
line; the preview is truncated — the number of preview lines is exactly
`min 10` of each side's orphan count — and whenever a side has more than
ten orphans an overflow line carrying that side's total count appears.
`sortStrings` really sorts: its output is a `strLe`-sorted permutation of
its input. -/
theorem process_split_report_spec :
    ∀ (fs : FileSystem) (root split imgd idxd : String) (ie ic del : Bool),
      fs.pathExists (joinPath root split) →
      fs.pathExists (joinPath (joinPath root split) imgd) →
      fs.pathExists (joinPath (joinPath root split) idxd) →
      (let r := process_split fs root split imgd idxd ie ic del
       let image_files := list_files fs (joinPath (joinPath root split) imgd)
       let index_files := list_files fs (joinPath (joinPath root split) idxd)
       let orphans := compute_orphans (collect_keys_map image_files ie ic)
           (collect_keys_map index_files ie ic)
       ("[" ++ split ++ "] ✔ 扫描完成：image=" ++ toString image_files.length
           ++ "，index=" ++ toString index_files.length) ∈ r.reportLines
       ∧ ("    - 仅在 image 的孤儿文件：" ++ toString orphans.1.length) ∈ r.reportLines
       ∧ ("    - 仅在 index 的孤儿文件：" ++ toString orphans.2.length) ∈ r.reportLines
       ∧ (∀ p ∈ (sortStrings orphans.1).take 10,
            ("        * " ++ human_relpath p root) ∈ r.reportLines)
       ∧ (∀ p ∈ (sortStrings orphans.2).take 10,
            ("        * " ++ human_relpath p root) ∈ r.reportLines)
       ∧ (orphans.1.length > 10 →
            ("        … 共 " ++ toString orphans.1.length ++ " 个") ∈ r.reportLines)
       ∧ (orphans.2.length > 10 →
            ("        … 共 " ++ toString orphans.2.length ++ " 个") ∈ r.reportLines)
       ∧ List.Sorted (fun a b => strLe a b = true) (sortStrings orphans.1)
       ∧ List.Perm (sortStrings orphans.1) orphans.1
       ∧ List.Sorted (fun a b => strLe a b = true) (sortStrings orphans.2)
       ∧ List.Perm (sortStrings orphans.2) orphans.2
       ∧ r.reportLines.countP isPreviewLine
           = min 10 orphans.1.length + min 10 orphans.2.length) := by
  intro fs root split imgd idxd ie ic del h1 h2 h3
  have hno : ¬ (¬ fs.pathExists (joinPath (joinPath root split) imgd)
      ∨ ¬ fs.pathExists (joinPath (joinPath root split) idxd)) := by simp [h2, h3]
  have hcnt : ∀ (l : List String) (root' : String),
      (l.map (fun p => "        * " ++ human_relpath p root')).countP isPreviewLine
        = l.length := by
    intro l root'
    rw [List.countP_eq_length.mpr, List.length_map]
    intro a ha
    obtain ⟨p, _, rfl⟩ := List.mem_map.mp ha
    exact isPreviewLine_star _
  simp only [process_split]
  rw [if_neg (not_not_intro h1), if_neg hno]
  cases del
  · rw [if_neg (by decide)]
    refine ⟨by simp, by simp, by simp, ?_, ?_, ?_, ?_,
      sortStrings_sorted _, sortStrings_perm _, sortStrings_sorted _, sortStrings_perm _, ?_⟩
    · intro p hp
      have hline := List.mem_map_of_mem (fun p => "        * " ++ human_relpath p root) hp
      simp only [List.append_assoc, List.mem_append, List.mem_cons]
      tauto
    · intro p hp
      have hline := List.mem_map_of_mem (fun p => "        * " ++ human_relpath p root) hp
      simp only [List.append_assoc, List.mem_append, List.mem_cons]
      tauto
    · intro h10
      simp [List.mem_append, h10]
    · intro h10
      simp [List.mem_append, h10]
    · simp only [List.countP_append, List.countP_cons, List.countP_nil,
        apply_ite (List.countP isPreviewLine), preview_scan, preview_imgHdr, preview_idxHdr,
        preview_more, preview_dry, hcnt, List.length_take, length_sortStrings]
      simp [ite_self]
  · rw [if_pos (by decide)]
    refine ⟨by simp, by simp, by simp, ?_, ?_, ?_, ?_,
      sortStrings_sorted _, sortStrings_perm _, sortStrings_sorted _, sortStrings_perm _, ?_⟩
    · intro p hp
      have hline := List.mem_map_of_mem (fun p => "        * " ++ human_relpath p root) hp
      simp only [List.append_assoc, List.mem_append, List.mem_cons]
      tauto
    · intro p hp
      have hline := List.mem_map_of_mem (fun p => "        * " ++ human_relpath p root) hp
      simp only [List.append_assoc, List.mem_append, List.mem_cons]
      tauto
    · intro h10
      simp [List.mem_append, h10]
    · intro h10
      simp [List.mem_append, h10]
    · simp only [List.countP_append, List.countP_cons, List.countP_nil,
        apply_ite (List.countP isPreviewLine), preview_scan, preview_imgHdr, preview_idxHdr,
        preview_more, preview_delImg, preview_delIdx, hcnt, List.length_take, length_sortStrings]
      simp [ite_self]

/-- Witness for C5 on `fsExample`: one orphan per side, hence exactly two
preview lines in the dry-run report. -/
theorem process_split_report_spec_witness :
    (process_split fsExample "r" "train" "image" "index" true false false).reportLines.countP
      isPreviewLine = 2 := by
  have h := process_split_report_spec fsExample "r" "train" "image" "index" true false false
    (by decide) (by decide) (by decide)
  exact h.2.2.2.2.2.2.2.2.2.2.2.trans (by decide)
